import Mathlib

set_option autoImplicit false

/-!
Shallow embedding of the vslzr audio-reactive simulation engine.

Sources embedded here:
- the three-band audio feature extractor of the swarm entry point
  (function processAudioData, thirds of the bin array, p = 2, k = 10);
- the NaN guard of the swarm tick loop (function updateParticles);
- the energy-bearing Particle class (updateEnergy, calculateAudioForce,
  calculateCenterForce, applyNoise, applyWavePattern, applyBoundary, update);
- the tick loop of BasicParticleSystem.update;
- the modal string line (class LineVslzr) and the harmonic wave line
  (class WaveLineVslzr), including their shadow-line trail shifting.

Modelling conventions: JavaScript numbers are modelled as real numbers
wherever the embedded code keeps them finite; the feature extractor and the
NaN guard, whose behaviour on non-finite values is at issue, are modelled
over an explicit IEEE-style scalar type FNum with NaN and signed infinity
carried over rational payloads. Math.random draws, the per-entity simplex
noise fields and the clock are oracle inputs threaded through the state.
The constant boundary comes from a constants module that is not part of the
embedded sources, so it is passed everywhere as an explicit parameter.
-/

set_option maxHeartbeats 1000000

/-- IEEE-style scalar: a finite rational, NaN, or a signed infinity.
Only the operand shapes produced by the embedded extractor matter; the
definitions below follow IEEE-754 semantics on all listed cases. -/
inductive FNum where
  | finite (q : ℚ)
  | nan
  | inf
  | ninf
deriving DecidableEq

/-- Number.isNaN of the guard. -/
def FNum.isNaN : FNum → Bool
  | FNum.nan => true
  | _ => false

/-- Number.isFinite: true exactly on finite values. -/
def FNum.isFinite : FNum → Bool
  | FNum.finite _ => true
  | _ => false

/-- IEEE division. The embedded extractor only ever divides finite values;
0/0 gives NaN and x/0 for x positive gives +Infinity, as in JavaScript. -/
def FNum.div : FNum → FNum → FNum
  | FNum.finite a, FNum.finite b =>
      if b = 0 then (if a = 0 then FNum.nan else if 0 < a then FNum.inf else FNum.ninf)
      else FNum.finite (a / b)
  | FNum.nan, _ => FNum.nan
  | _, FNum.nan => FNum.nan
  | FNum.inf, FNum.finite b => if 0 ≤ b then FNum.inf else FNum.ninf
  | FNum.ninf, FNum.finite b => if 0 ≤ b then FNum.ninf else FNum.inf
  | _, FNum.inf => FNum.nan
  | _, FNum.ninf => FNum.nan

/-- IEEE Math.pow with a natural exponent; pow(x, 0) is 1 for every x. -/
def FNum.npow : FNum → ℕ → FNum
  | _, 0 => FNum.finite 1
  | FNum.finite a, n => FNum.finite (a ^ n)
  | FNum.nan, _ => FNum.nan
  | FNum.inf, _ => FNum.inf
  | FNum.ninf, n => if n % 2 = 0 then FNum.inf else FNum.ninf

/-- IEEE multiplication; NaN propagates, infinity times zero is NaN. -/
def FNum.mul : FNum → FNum → FNum
  | FNum.finite a, FNum.finite b => FNum.finite (a * b)
  | FNum.nan, _ => FNum.nan
  | _, FNum.nan => FNum.nan
  | FNum.inf, FNum.finite b => if b = 0 then FNum.nan else if 0 < b then FNum.inf else FNum.ninf
  | FNum.finite a, FNum.inf => if a = 0 then FNum.nan else if 0 < a then FNum.inf else FNum.ninf
  | FNum.ninf, FNum.finite b => if b = 0 then FNum.nan else if 0 < b then FNum.ninf else FNum.inf
  | FNum.finite a, FNum.ninf => if a = 0 then FNum.nan else if 0 < a then FNum.ninf else FNum.inf
  | FNum.inf, FNum.inf => FNum.inf
  | FNum.inf, FNum.ninf => FNum.ninf
  | FNum.ninf, FNum.inf => FNum.ninf
  | FNum.ninf, FNum.ninf => FNum.inf

/-- The normalize closure of processAudioData:
Math.pow(sum / (count * 255), 2) * 10, over IEEE scalars. Sums of byte
magnitudes and bin counts are exact naturals.  -/
def normalizeBand (sum count : ℕ) : FNum :=
  FNum.mul (FNum.npow (FNum.div (FNum.finite (sum : ℚ)) (FNum.finite ((count : ℚ) * 255))) 2)
    (FNum.finite 10)

/-- processAudioData of the swarm entry point: the bin array is split into
thirds by index, each band is summed and normalized. slice(a, b) is
drop a followed by take (b - a). -/
def processAudioData (arr : List ℕ) : FNum × FNum × FNum :=
  let lowEnd := arr.length / 3
  let midEnd := arr.length * 2 / 3
  let lowSum := ((arr.take lowEnd).sum)
  let midSum := (((arr.drop lowEnd).take (midEnd - lowEnd)).sum)
  let highSum := ((arr.drop midEnd).sum)
  (normalizeBand lowSum lowEnd, normalizeBand midSum (midEnd - lowEnd),
    normalizeBand highSum (arr.length - midEnd))

/-- Position or velocity vector as seen by the NaN guard. -/
structure FVec3 where
  x : FNum
  y : FNum
  z : FNum
deriving DecidableEq

/-- The all-zero vector written by the guard on reset. -/
def fvZero : FVec3 := ⟨FNum.finite 0, FNum.finite 0, FNum.finite 0⟩

/-- The per-particle guard of updateParticles: when no position component is
NaN the position is copied into the output buffer slot; otherwise the
particle position is set to the origin and zeros are written. Result is
(new particle position, new particle velocity, buffer slot written). -/
def guardParticleSlot (pos vel : FVec3) : FVec3 × FVec3 × FVec3 :=
  if !pos.x.isNaN && !pos.y.isNaN && !pos.z.isNaN then (pos, vel, pos)
  else (fvZero, vel, fvZero)

noncomputable section

/-- THREE.Vector3, modelled over the reals. -/
structure Vec3 where
  x : ℝ
  y : ℝ
  z : ℝ

def Vec3.zero : Vec3 := ⟨0, 0, 0⟩

def Vec3.add (a b : Vec3) : Vec3 := ⟨a.x + b.x, a.y + b.y, a.z + b.z⟩

def Vec3.sub (a b : Vec3) : Vec3 := ⟨a.x - b.x, a.y - b.y, a.z - b.z⟩

/-- multiplyScalar. -/
def Vec3.smul (a : Vec3) (t : ℝ) : Vec3 := ⟨a.x * t, a.y * t, a.z * t⟩

def Vec3.dot (a b : Vec3) : ℝ := a.x * b.x + a.y * b.y + a.z * b.z

def Vec3.length (a : Vec3) : ℝ := Real.sqrt (a.x ^ 2 + a.y ^ 2 + a.z ^ 2)

def Vec3.distanceTo (a b : Vec3) : ℝ := (a.sub b).length

/-- THREE normalize divides by the length when it is nonzero and leaves the
zero vector unchanged. -/
def Vec3.normalize (v : Vec3) : Vec3 :=
  if v.length = 0 then v else v.smul (1 / v.length)

/-- THREE reflect about a normal: v - 2 (v . n) n. -/
def Vec3.reflect (v n : Vec3) : Vec3 := v.sub (n.smul (2 * v.dot n))

/-- Three-band audio feature vector, the AudioData record of types.ts. -/
structure AudioData where
  low : ℝ
  mid : ℝ
  high : ℝ

/-- One tick of external inputs for a particle update: the audio vector, the
center position, the clock, the time step, and the Math.random draws made
during the tick. randB is the draw of applyBoundary; randV and randE are the
draws of the bass-explosion variation and of the random explosion burst. -/
structure TickInput where
  audio : AudioData
  center : Vec3
  time : ℝ
  dt : ℝ
  randB : ℝ
  randV1 : ℝ
  randV2 : ℝ
  randV3 : ℝ
  randE1 : ℝ
  randE2 : ℝ
  randE3 : ℝ

/-- The energy-bearing Particle class. The constructor fixes energy at 0.1,
an empty history, zero velocity and acceleration; mass is never read by
update and is omitted. The simplex noise field of the particle is an oracle
function of three coordinates. -/
structure Particle where
  position : Vec3
  velocity : Vec3
  acceleration : Vec3
  noise : ℝ → ℝ → ℝ → ℝ
  audioSensitivity : AudioData
  audioHistory : List AudioData
  energy : ℝ

/-- Constructor constant this.minEnergy = 0.35; no code reassigns it. -/
def minEnergy : ℝ := 0.35

/-- Constructor constant this.maxEnergy = 1. -/
def maxEnergy : ℝ := 1

/-- Constructor constant this.restThreshold = 0.4. -/
def restThreshold : ℝ := 0.4

/-- Constructor constant this.baseSpeed = 5. -/
def baseSpeed : ℝ := 5

/-- History push of calculateAudioForce: push the sample, then shift the
oldest entry away when the length exceeds 10. -/
def pushHistory (h : List AudioData) (a : AudioData) : List AudioData :=
  let h2 := h ++ [a]
  if 10 < h2.length then h2.tail else h2

/-- Averaged audio data of calculateAudioForce: componentwise sum of the
history divided by the history length. -/
def avgAudio (h : List AudioData) : AudioData :=
  ⟨(h.map AudioData.low).sum / h.length,
   (h.map AudioData.mid).sum / h.length,
   (h.map AudioData.high).sum / h.length⟩

/-- Force vector of calculateAudioForce computed from the averaged history,
with lowFactor 8, midFactor 2, highFactor 4, and the bass explosion fired
above the threshold 1. The noiseForce vector computed in the explosion
branch of the source is never used there and is omitted. -/
def audioForceFrom (boundary : ℝ) (p : Particle) (inp : TickInput) (avg : AudioData) : Vec3 :=
  let bassForce := avg.low * p.audioSensitivity.low * (boundary * 8)
  let midForce := avg.mid * p.audioSensitivity.mid * (boundary * 2)
  let highForce := avg.high * p.audioSensitivity.high * (boundary * 4)
  let base : Vec3 :=
    ⟨Real.sin (inp.time * 2 + p.position.x) * bassForce,
     Real.cos (inp.time * 3 + p.position.y) * midForce,
     Real.sin (inp.time * 4 + p.position.z) * highForce⟩
  if 1 < avg.low then
    let explosionDirection :=
      (((p.position.sub inp.center).normalize).add
        ⟨(inp.randV1 - 0.5) * 0.4, (inp.randV2 - 0.5) * 0.4, (inp.randV3 - 0.5) * 0.4⟩).normalize
    let explosionStrength := bassForce * 5 * (avg.low - 1)
    let explosionForce := explosionDirection.smul explosionStrength
    let randomExplosion : Vec3 :=
      ⟨(inp.randE1 - 0.5) * explosionStrength, (inp.randE2 - 0.5) * explosionStrength,
       (inp.randE3 - 0.5) * explosionStrength⟩
    (base.add explosionForce).add randomExplosion
  else base

/-- calculateCenterForce: above the rest threshold the particle seeks the
center with a quadratic speed factor; otherwise it decelerates against its
current velocity. energy is the value set earlier in the tick by
updateEnergy. -/
def calculateCenterForce (boundary : ℝ) (center pos vel : Vec3) (energy : ℝ) : Vec3 :=
  let direction := center.sub pos
  let distance := direction.length
  let maxDistance := boundary / 2
  if restThreshold < energy then
    let speedFactor := ((distance / maxDistance) * (energy - restThreshold)) ^ 2
    direction.normalize.smul (baseSpeed * speedFactor)
  else
    let decelerationFactor := max 0 (restThreshold - energy) / restThreshold
    vel.smul (-decelerationFactor)

/-- Acceleration increment of applyNoise: the noise field sampled at the
scaled position plus time offset, with strength 0.2 (1 - audioLevel)^3
times energy. -/
def noiseAccelVec (p : Particle) (inp : TickInput) (audioLevel energy : ℝ) : Vec3 :=
  let noiseStrength := 0.2 * (1 - audioLevel) ^ 3 * energy
  let noiseOffset := p.noise (p.position.x * 0.92 + inp.time * 0.1)
    (p.position.y * 0.92 + inp.time * 0.1) (p.position.z * 0.92 + inp.time * 0.1)
  (⟨noiseOffset, noiseOffset, noiseOffset⟩ : Vec3).smul noiseStrength

/-- applyBoundary of the energy-bearing particle: outside the randomly
enlarged boundary the position is clamped onto the boundary sphere, the
velocity is reflected with restitution 0.5, and the energy is halved.
Result is (position, velocity, energy). rand is the Math.random draw. -/
def applyBoundary (boundary : ℝ) (center : Vec3) (rand : ℝ) (pos vel : Vec3) (energy : ℝ) :
    Vec3 × Vec3 × ℝ :=
  let distanceToCenter := pos.distanceTo center
  let randomBoundaryVariation := rand * (boundary / 2)
  if boundary + randomBoundaryVariation < distanceToCenter then
    let direction := (pos.sub center).normalize
    let newPos := center.add (direction.smul boundary)
    let normal := (newPos.sub center).normalize
    (newPos, (vel.reflect normal).smul 0.5, energy * 0.5)
  else (pos, vel, energy)

/-- Particle.update of the energy-bearing variant, in source order:
updateEnergy (increment then clamp into [minEnergy, maxEnergy]),
calculateAudioForce (history push, averaging, oscillation, explosion),
calculateCenterForce, velocity integration, applyNoise and applyWavePattern
(acceleration only), position integration, applyBoundary. -/
def Particle.update (boundary : ℝ) (p : Particle) (inp : TickInput) : Particle :=
  let audioLevel := (inp.audio.low + inp.audio.mid + inp.audio.high) / 3
  let e1 := max (min (p.energy + audioLevel * 0.1 * inp.dt) maxEnergy) minEnergy
  let hist := pushHistory p.audioHistory inp.audio
  let audioForce := audioForceFrom boundary p inp (avgAudio hist)
  let centerForce := calculateCenterForce boundary inp.center p.position p.velocity e1
  let v1 := p.velocity.add ((audioForce.add centerForce).smul inp.dt)
  let acc1 := p.acceleration.add (noiseAccelVec p inp audioLevel e1)
  let waveStrength := (1 + audioLevel * 3) * e1
  let waveFrequency := 0.5 + audioLevel * 1.5
  let wave := Real.sin (inp.time * waveFrequency + p.position.x * 0.1) * waveStrength
  let acc2 : Vec3 := ⟨acc1.x, acc1.y + wave, acc1.z⟩
  let pos1 := p.position.add (v1.smul inp.dt)
  let r := applyBoundary boundary inp.center inp.randB pos1 v1 e1
  { position := r.1, velocity := r.2.1, acceleration := acc2, noise := p.noise,
    audioSensitivity := p.audioSensitivity, audioHistory := hist, energy := r.2.2 }

/-- A run of consecutive ticks on one particle. -/
def runParticle (boundary : ℝ) (p : Particle) (inputs : List TickInput) : Particle :=
  inputs.foldl (fun q i => Particle.update boundary q i) p

/-- Number.isNaN applied to the position of a real-valued particle: every
real number is a number, so the check of BasicParticleSystem.update is false
on every state the embedding can produce. -/
def posIsNaN (_p : Particle) : Bool := false

/-- The tick loop of BasicParticleSystem.update. Each particle is paired
with its tick input (the Math.random draws differ between particles). In
the branch where the freshly updated position passes the NaN check the
source executes a return statement, so the remaining particles are left
untouched and their buffer slots keep their previous contents; in the other
branch zeros are written and the loop continues. Result is (particle list,
position buffer). -/
def basicTickAux (boundary : ℝ) : List (Particle × TickInput) → List Vec3 → List Particle × List Vec3
  | [], buf => ([], buf)
  | (p, inp) :: rest, buf =>
    let updated := Particle.update boundary p inp
    if posIsNaN updated then
      let r := basicTickAux boundary rest buf.tail
      (updated :: r.1, Vec3.zero :: r.2)
    else
      (updated :: rest.map Prod.fst, updated.position :: buf.tail)

/-- A snapshot of a geometry position attribute: one (x, y, z) triple per
point, in index order. -/
abbrev PtArray := List (ℝ × ℝ × ℝ)

/-- The shadow-line shift shared by LineVslzr and WaveLineVslzr: slot i
receives the previous contents of slot i-1 for i from the top down to 1,
and slot 0 receives the array given as first argument. Equivalent to
consing that array and dropping the last slot. The source indexes
shadowLines[0] unconditionally, so the embedding is used with at least one
slot. -/
def shiftIn (arr : PtArray) (shadows : List PtArray) : List PtArray :=
  arr :: shadows.dropLast

/-- Tunable parameters of LineVslzr (GUI defaults: amplitude 1, damping 0.1,
excitability 0.1, lineLength 20, tension 300, waveSpeed sqrt(300/0.03)). -/
structure LineParams where
  amplitude : ℝ
  numPoints : ℕ
  damping : ℝ
  excitability : ℝ
  lineLength : ℝ
  tension : ℝ
  waveSpeed : ℝ

/-- Rest x-coordinate of string point i, fixed at init:
(i / (numPoints - 1)) * lineLength - lineLength / 2. -/
def lineX (P : LineParams) (i : ℕ) : ℝ :=
  ((i : ℝ) / ((P.numPoints : ℝ) - 1)) * P.lineLength - P.lineLength / 2

/-- Precomputed quadratic edge damping factor of string point i. -/
def dampingFactor (P : LineParams) (i : ℕ) : ℝ :=
  (|lineX P i| / (P.lineLength / 2)) ^ 2

/-- calculateTotalAmplitude: (low * 2 + mid * 0.01 + high * 0.25) / 3. -/
def calcTotalAmplitude (a : AudioData) : ℝ :=
  (a.low * 2 + a.mid * 0.01 + a.high * 0.25) / 3

/-- calculateDisplacement: superposition of the first five vibration modes,
A_n = scaledAmplitude exp(-n/2), omega_n = n pi waveSpeed / lineLength. -/
def calculateDisplacement (P : LineParams) (totalAmplitude x time : ℝ) : ℝ :=
  let scaledAmplitude := totalAmplitude * 20 * P.amplitude
  (List.range 5).foldl
    (fun acc k =>
      let n : ℝ := (k : ℝ) + 1
      acc + scaledAmplitude * Real.exp (-(n * 0.5)) *
        Real.sin (n * Real.pi * x / P.lineLength) *
        Real.cos (n * Real.pi * P.waveSpeed / P.lineLength * time)) 0

/-- calculateNoiseForce: 2D simplex noise at (x/2, time/2) times
excitability; the noise field is an oracle. -/
def calculateNoiseForce (P : LineParams) (noise2 : ℝ → ℝ → ℝ) (x time : ℝ) : ℝ :=
  noise2 (x * 0.5) (time * 0.5) * P.excitability

/-- calculateAudioForce of LineVslzr: (low/2 + 3 mid/10 + high/5) * 2. -/
def lineAudioForce (a : AudioData) : ℝ :=
  (a.low * 0.5 + a.mid * 0.3 + a.high * 0.2) * 2

/-- calculateTensionForce: -y * tension / lineLength. -/
def calculateTensionForce (P : LineParams) (y : ℝ) : ℝ :=
  -y * (P.tension / P.lineLength)

/-- updateSinglePoint of LineVslzr on the y and velocity of point i, in
source order: integrate the total force into the velocity, damp the
velocity, add the velocity to y, decay y. Result is (new y, new velocity).
-/
def updateSinglePoint (P : LineParams) (noise2 : ℝ → ℝ → ℝ)
    (time dt totalAmplitude decayFactor : ℝ) (a : AudioData) (i : ℕ) (y v : ℝ) : ℝ × ℝ :=
  let x := lineX P i
  let displacement := calculateDisplacement P totalAmplitude x time
  let noiseForce := calculateNoiseForce P noise2 x time
  let audioForce := lineAudioForce a
  let tensionForce := calculateTensionForce P y
  let totalDisplacement := displacement + noiseForce + audioForce
  let v1 := v + (totalDisplacement + tensionForce - y) * dt
  let v2 := v1 * (1 - (P.damping + dampingFactor P i * 0.9))
  let y1 := y + v2
  let y2 := y1 * decayFactor
  (y2, v2)

/-- Mutable state of LineVslzr: the clock, the y-displacements and
velocities of the points, the shadow-line snapshots (most recent first),
and the 2D noise oracle field. -/
structure LineState where
  time : ℝ
  ys : List ℝ
  vs : List ℝ
  shadows : List PtArray
  noise2 : ℝ → ℝ → ℝ

/-- The live position attribute rebuilt from the fixed x-coordinates and
the current y-displacements; z is always 0. -/
def livePoints (P : LineParams) (ys : List ℝ) : PtArray :=
  (List.range P.numPoints).map (fun i => (lineX P i, ys.getD i 0, 0))

/-- LineVslzr.update: advance the clock, update every point with
updateSinglePoint (decay factor exp(-dt/1)), then shift the shadow lines,
cloning the freshly updated live attribute into slot 0. -/
def lineUpdate (P : LineParams) (s : LineState) (a : AudioData) (dt : ℝ) : LineState :=
  let time1 := s.time + dt
  let totalAmplitude := calcTotalAmplitude a
  let decayFactor := Real.exp (-dt / 1)
  let pts := (List.range P.numPoints).map
    (fun i => updateSinglePoint P s.noise2 time1 dt totalAmplitude decayFactor a i
      (s.ys.getD i 0) (s.vs.getD i 0))
  let ys1 := pts.map Prod.fst
  let vs1 := pts.map Prod.snd
  { time := time1, ys := ys1, vs := vs1,
    shadows := shiftIn (livePoints P ys1) s.shadows, noise2 := s.noise2 }

/-- Tunable parameters of WaveLineVslzr (defaults: waveSpeed 10,
numPoints 250). -/
structure WaveParams where
  numPoints : ℕ
  waveSpeed : ℝ

/-- calculateX of WaveLineVslzr: (i / (numPoints - 1)) * 30 - 15. -/
def waveX (P : WaveParams) (i : ℕ) : ℝ :=
  ((i : ℝ) / ((P.numPoints : ℝ) - 1)) * 30 - 15

/-- The fixed harmonic series of WaveLineVslzr. -/
def waveHarmonics : List ℝ := [1, 2, 3, 5, 8, 13, 21]

/-- easeInOutQuad easing. -/
def easeInOutQuad (t : ℝ) : ℝ :=
  if t < 0.5 then 2 * t * t else 1 - (-2 * t + 2) ^ 2 / 2

/-- calculateY of WaveLineVslzr: harmonic superposition with phase
time * waveSpeed, each term attenuated by a slow secondary sine, the sum
scaled by the eased oscillation of the clock. -/
def waveCalculateY (P : WaveParams) (time x baseAmplitude : ℝ) : ℝ :=
  let phaseShift := time * P.waveSpeed
  let y0 := waveHarmonics.foldl
    (fun acc h =>
      acc + Real.sin (x * h + phaseShift) * (baseAmplitude / (h * 1.5)) *
        (1 - |Real.sin (x * 0.1 + phaseShift * 0.2)|)) 0
  let t := (Real.sin (time * 0.5) + 1) / 2
  y0 * easeInOutQuad t

/-- One raw point of updateLinePositions of WaveLineVslzr before smoothing:
the three band amplitudes are capped at 1, combined with weights 3:2:1,
scaled to maxAmplitude 5, attenuated by cos(normalizedX pi/2)^4. -/
def waveRawPoint (P : WaveParams) (time : ℝ) (a : AudioData) (i : ℕ) : ℝ × ℝ × ℝ :=
  let lowAmp := min (a.low * 0.8) 1
  let midAmp := min (a.mid * 0.5) 1
  let highAmp := min (a.high * 0.3) 1
  let dynamicAmplitude := (lowAmp * 3 + midAmp * 2 + highAmp) / 6
  let scaledAmplitude := dynamicAmplitude * 5
  let normalizedX := ((i : ℝ) / ((P.numPoints : ℝ) - 1)) * 2 - 1
  let amplitudeMultiplier := (Real.cos (normalizedX * Real.pi / 2)) ^ 4
  (waveX P i, waveCalculateY P time (waveX P i) (scaledAmplitude * amplitudeMultiplier), 0)

/-- smoothWave of WaveLineVslzr: one pass of a distance-weighted window of
radius 2 with index clamping, blended with weight 0.1 into the original y,
then attenuated by sin(i/(numPoints-1) pi)^0.7. Only y changes. -/
def smoothWave (P : WaveParams) (ps : PtArray) : PtArray :=
  (List.range P.numPoints).map (fun (i : ℕ) =>
    let window := ([-2, -1, 0, 1, 2] : List ℤ).map (fun j =>
      let idx := (max 0 (min ((P.numPoints : ℤ) - 1) ((i : ℤ) + j))).toNat
      ((ps.getD idx (0, 0, 0)).2.1, 1 / ((j.natAbs : ℝ) + 1)))
    let sum := (window.map (fun q => q.1 * q.2)).sum
    let weightSum := (window.map Prod.snd).sum
    let smoothedY := sum / weightSum
    let p0 := ps.getD i (0, 0, 0)
    let edgeFactor := (Real.sin (((i : ℝ) / ((P.numPoints : ℝ) - 1)) * Real.pi)) ^ (0.7 : ℝ)
    (p0.1, (smoothedY * (1 - 0.9) + p0.2.1 * 0.9) * edgeFactor, p0.2.2))

/-- Mutable state of WaveLineVslzr: clock, live position attribute, shadow
snapshots (most recent first). -/
structure WaveState where
  time : ℝ
  positions : PtArray
  shadows : List PtArray

/-- WaveLineVslzr.update, in source order: advance the clock by
dt * waveSpeed, shift the shadow lines FIRST (slot 0 receives the live
array as it was before this tick), then rebuild and smooth the live
points. -/
def waveUpdate (P : WaveParams) (s : WaveState) (a : AudioData) (dt : ℝ) : WaveState :=
  let time1 := s.time + dt * P.waveSpeed
  let shadows1 := shiftIn s.positions s.shadows
  let raw := (List.range P.numPoints).map (waveRawPoint P time1 a)
  { time := time1, positions := smoothWave P raw, shadows := shadows1 }

/-! Concrete states used to evaluate the embedding on explicit inputs. -/

/-- A noise oracle that returns 0 everywhere. -/
def quietNoise : ℝ → ℝ → ℝ → ℝ := fun _ _ _ => 0

/-- The zero audio vector: silence, a fully supported input. -/
def silence : AudioData := ⟨0, 0, 0⟩

/-- A quiet tick: silence, center at the origin, time 0, dt of one frame at
60 fps, every Math.random draw equal to 0. -/
def quietInput : TickInput :=
  { audio := silence, center := Vec3.zero, time := 0, dt := 1 / 60, randB := 0,
    randV1 := 0, randV2 := 0, randV3 := 0, randE1 := 0, randE2 := 0, randE3 := 0 }

/-- A freshly constructed particle sitting at distance 3 from the center,
with the constructor values: zero velocity and acceleration, empty history,
energy 0.1; zero sensitivity and a zero noise field. -/
def farParticle : Particle :=
  { position := ⟨3, 0, 0⟩, velocity := Vec3.zero, acceleration := Vec3.zero,
    noise := quietNoise, audioSensitivity := silence, audioHistory := [], energy := 0.1 }

/-- A freshly constructed particle at the center. -/
def originParticle : Particle :=
  { position := Vec3.zero, velocity := Vec3.zero, acceleration := Vec3.zero,
    noise := quietNoise, audioSensitivity := silence, audioHistory := [], energy := 0.1 }

/-- A particle carrying acceleration (1, 0, 0) from earlier ticks. -/
def accParticle : Particle :=
  { position := Vec3.zero, velocity := Vec3.zero, acceleration := ⟨1, 0, 0⟩,
    noise := quietNoise, audioSensitivity := silence, audioHistory := [], energy := 0.1 }

/-- A two-point all-zero position attribute. -/
def zeroPts : PtArray := [(0, 0, 0), (0, 0, 0)]

/-- A two-point wave line with one shadow slot. -/
def waveCexParams : WaveParams := { numPoints := 2, waveSpeed := 10 }

/-- Freshly constructed wave state: zero clock, all-zero buffers. -/
def waveCex0 : WaveState := { time := 0, positions := zeroPts, shadows := [zeroPts] }

/-- A two-point wave state with two shadow slots. -/
def twoShadowWave : WaveState := { time := 0, positions := zeroPts, shadows := [zeroPts, zeroPts] }

/-- Two-point string line parameters (GUI default values otherwise). -/
def lineCexParams : LineParams :=
  { amplitude := 1, numPoints := 2, damping := 0.1, excitability := 0.1,
    lineLength := 20, tension := 300, waveSpeed := 100 }

/-- A two-point string line state with two shadow slots and a zero noise
field. -/
def twoShadowLine : LineState :=
  { time := 0, ys := [0, 0], vs := [0, 0], shadows := [zeroPts, zeroPts],
    noise2 := fun _ _ => 0 }

/-- One-point string line parameters. -/
def lineWitParams : LineParams :=
  { amplitude := 1, numPoints := 1, damping := 0.1, excitability := 0.1,
    lineLength := 20, tension := 300, waveSpeed := 100 }

/-- A one-point string line state. -/
def lineWitState : LineState :=
  { time := 0, ys := [0], vs := [0], shadows := [zeroPts], noise2 := fun _ _ => 0 }

end


/-! Helper lemmas. -/

theorem Vec3.length_nonneg (v : Vec3) : 0 ≤ v.length := Real.sqrt_nonneg _

theorem Vec3.length_smul (v : Vec3) (t : ℝ) : (v.smul t).length = |t| * v.length := by
  unfold Vec3.length Vec3.smul
  rw [show (v.x * t) ^ 2 + (v.y * t) ^ 2 + (v.z * t) ^ 2
      = t ^ 2 * (v.x ^ 2 + v.y ^ 2 + v.z ^ 2) from by ring,
    Real.sqrt_mul (sq_nonneg t), Real.sqrt_sq_eq_abs]

theorem Vec3.add_sub_cancel_left (c w : Vec3) : (c.add w).sub c = w := by
  simp only [Vec3.add, Vec3.sub]
  congr 1 <;> ring

theorem Vec3.normalize_length_le_one (v : Vec3) : v.normalize.length ≤ 1 := by
  unfold Vec3.normalize
  by_cases h : v.length = 0
  · simp [h]
  · rw [if_neg h, Vec3.length_smul]
    have hpos : 0 < v.length := lt_of_le_of_ne (Vec3.length_nonneg v) (Ne.symm h)
    rw [abs_of_pos (by positivity)]
    rw [one_div, inv_mul_cancel₀ h]

theorem applyBoundary_energy_cases (b : ℝ) (c : Vec3) (r : ℝ) (pos vel : Vec3) (e : ℝ)
    (h1 : minEnergy ≤ e) (h2 : e ≤ maxEnergy) :
    minEnergy / 2 ≤ (applyBoundary b c r pos vel e).2.2 ∧
      (applyBoundary b c r pos vel e).2.2 ≤ maxEnergy := by
  simp only [applyBoundary]
  split_ifs
  · constructor
    · show minEnergy / 2 ≤ e * 0.5
      simp only [minEnergy, maxEnergy] at *
      linarith
    · show e * 0.5 ≤ maxEnergy
      simp only [minEnergy, maxEnergy] at *
      linarith
  · exact ⟨by simp only [minEnergy] at *; linarith, h2⟩

theorem noiseAccelVec_acc_irrel (p : Particle) (a : Vec3) (inp : TickInput) (lvl e : ℝ) :
    noiseAccelVec { p with acceleration := a } inp lvl e = noiseAccelVec p inp lvl e := rfl

theorem update_audioHistory (boundary : ℝ) (p : Particle) (inp : TickInput) :
    (Particle.update boundary p inp).audioHistory = pushHistory p.audioHistory inp.audio := rfl

theorem pushHistory_length (h : List AudioData) (a : AudioData) :
    (pushHistory h a).length = if 10 < h.length + 1 then h.length else h.length + 1 := by
  simp only [pushHistory, List.length_append, List.length_singleton]
  split_ifs with hc
  · simp [List.length_tail]
  · simp

theorem runParticle_history_len (boundary : ℝ) (inputs : List TickInput) :
    ∀ p : Particle, p.audioHistory.length ≤ 10 →
      (runParticle boundary p inputs).audioHistory.length =
        min (p.audioHistory.length + inputs.length) 10 := by
  induction inputs with
  | nil => intro p hp; simp [runParticle]; omega
  | cons a l ih =>
    intro p hp
    have hstep : (Particle.update boundary p a).audioHistory.length =
        if 10 < p.audioHistory.length + 1 then p.audioHistory.length
        else p.audioHistory.length + 1 := by
      rw [update_audioHistory, pushHistory_length]
    have hle : (Particle.update boundary p a).audioHistory.length ≤ 10 := by
      rw [hstep]; split_ifs <;> omega
    have hrun : runParticle boundary p (a :: l) =
        runParticle boundary (Particle.update boundary p a) l := rfl
    rw [hrun, ih _ hle, hstep]
    split_ifs <;> simp <;> omega

theorem getD_map_range (n : ℕ) (f : ℕ → ℝ) (i : ℕ) (hi : i < n) :
    (((List.range n).map f).getD i 0) = f i := by
  rw [List.getD_eq_getElem?_getD, List.getElem?_map, List.getElem?_range hi]
  rfl

theorem dropLast_getQ (l : List PtArray) (j : ℕ) (hj : j < l.length - 1) :
    l.dropLast.get? j = l.get? j := by
  rw [List.get?_eq_getElem?, List.get?_eq_getElem?, List.getElem?_dropLast, if_pos hj]

theorem shiftIn_getQ (arr : PtArray) (sh : List PtArray) (i : ℕ) (h0 : 0 < i)
    (hlen : i < sh.length) :
    (shiftIn arr sh).get? i = sh.get? (i - 1) := by
  obtain ⟨j, rfl⟩ : ∃ j, i = j + 1 := ⟨i - 1, by omega⟩
  simp only [shiftIn, List.get?_cons_succ, Nat.add_sub_cancel]
  exact dropLast_getQ sh j (by omega)

theorem normalizeBand_pos (c v : ℕ) (hc : 0 < c) :
    normalizeBand (c * v) c = FNum.finite (((v : ℚ) / 255) ^ 2 * 10) := by
  have hc0 : ((c : ℚ)) ≠ 0 := by positivity
  have hden : ((c : ℚ) * 255) ≠ 0 := by positivity
  simp only [normalizeBand, FNum.div, Nat.cast_mul, if_neg hden]
  rw [show ((c : ℚ) * (v : ℚ)) / ((c : ℚ) * 255) = (v : ℚ) / 255 from
    mul_div_mul_left _ _ hc0]
  rfl

theorem processAudioData_replicate (L x : ℕ) (hL : 3 ≤ L) :
    processAudioData (List.replicate L x) =
      (FNum.finite (((x : ℚ) / 255) ^ 2 * 10), FNum.finite (((x : ℚ) / 255) ^ 2 * 10),
       FNum.finite (((x : ℚ) / 255) ^ 2 * 10)) := by
  have h1 : 0 < L / 3 := by omega
  have h2 : 0 < L * 2 / 3 - L / 3 := by omega
  have h3 : 0 < L - L * 2 / 3 := by omega
  have hmin1 : min (L / 3) L = L / 3 := by omega
  have hmin2 : min (L * 2 / 3 - L / 3) (L - L / 3) = L * 2 / 3 - L / 3 := by omega
  simp only [processAudioData, List.length_replicate, List.take_replicate,
    List.drop_replicate, List.sum_replicate, smul_eq_mul, hmin1, hmin2]
  rw [normalizeBand_pos _ _ h1, normalizeBand_pos _ _ h2, normalizeBand_pos _ _ h3]

/-! Claim theorems. -/

/-- Claim C1, amended: after every call to Particle.update the energy lies
within [minEnergy / 2, maxEnergy]. The clamp inside updateEnergy does put
the energy into [minEnergy, maxEnergy], but applyBoundary runs afterwards
and halves the energy on a boundary hit, so the value observed after update
can be as low as minEnergy / 2. -/
theorem particle_energy_update_range (boundary : ℝ) (p : Particle) (inp : TickInput) :
    minEnergy / 2 ≤ (Particle.update boundary p inp).energy ∧
      (Particle.update boundary p inp).energy ≤ maxEnergy := by
  refine applyBoundary_energy_cases _ _ _ _ _ _ (le_max_right _ _) ?_
  exact max_le (le_trans (min_le_right _ _) le_rfl) (by norm_num [minEnergy, maxEnergy])

/-- Claim C1, counterexample: a fresh particle at distance 3 from the
center, updated once with silent audio, boundary 1 and zero random draws,
ends the tick with energy 0.175, strictly below minEnergy = 0.35: the
boundary bounce halves the freshly clamped energy. -/
theorem particle_energy_below_min_after_bounce :
    (Particle.update 1 farParticle quietInput).energy < minEnergy := by
  have h9 : Real.sqrt (9 : ℝ) = 3 := by
    rw [show (9 : ℝ) = 3 ^ 2 by norm_num, Real.sqrt_sq (by norm_num : (0 : ℝ) ≤ 3)]
  norm_num [Particle.update, farParticle, quietInput, silence, quietNoise, minEnergy,
    maxEnergy, restThreshold, baseSpeed, audioForceFrom, calculateCenterForce, avgAudio,
    pushHistory, applyBoundary, noiseAccelVec, Vec3.add, Vec3.sub, Vec3.smul, Vec3.dot,
    Vec3.zero, Vec3.distanceTo, Vec3.length, Vec3.normalize, Vec3.reflect, min_def, max_def,
    h9]

/-- Claim C2, amended: the guard of updateParticles reacts only to NaN
position components. When some position component is NaN the particle
position and the buffer slot are reset to the origin but the velocity is
left unchanged; when no component is NaN the position is copied into the
buffer unchanged, so infinite components pass through undetected. -/
theorem nan_guard_resets_position_only (pos vel : FVec3) :
    ((pos.x.isNaN || pos.y.isNaN || pos.z.isNaN) = true →
      guardParticleSlot pos vel = (fvZero, vel, fvZero)) ∧
    ((pos.x.isNaN || pos.y.isNaN || pos.z.isNaN) = false →
      guardParticleSlot pos vel = (pos, vel, pos)) := by
  cases hx : pos.x.isNaN <;> cases hy : pos.y.isNaN <;> cases hz : pos.z.isNaN <;>
    simp_all [guardParticleSlot]

/-- Claim C2, witness: a NaN x-component makes the guard reset the position
and the buffer slot to the origin while the velocity (1, 0, 0) survives. -/
theorem nan_guard_resets_position_only_witness :
    guardParticleSlot ⟨FNum.nan, FNum.finite 0, FNum.finite 0⟩
        ⟨FNum.finite 1, FNum.finite 0, FNum.finite 0⟩ =
      (fvZero, ⟨FNum.finite 1, FNum.finite 0, FNum.finite 0⟩, fvZero) :=
  (nan_guard_resets_position_only ⟨FNum.nan, FNum.finite 0, FNum.finite 0⟩
    ⟨FNum.finite 1, FNum.finite 0, FNum.finite 0⟩).1 (by decide)

/-- Claim C2, counterexample: an Infinity x-component is non-finite, yet
the guard copies it into the output buffer slot instead of resetting the
particle, because Number.isNaN is false on Infinity. -/
theorem nan_guard_propagates_infinity :
    FNum.isFinite ((⟨FNum.inf, FNum.finite 0, FNum.finite 0⟩ : FVec3).x) = false ∧
      (guardParticleSlot ⟨FNum.inf, FNum.finite 0, FNum.finite 0⟩ fvZero).2.2 =
        ⟨FNum.inf, FNum.finite 0, FNum.finite 0⟩ ∧
      (guardParticleSlot ⟨FNum.inf, FNum.finite 0, FNum.finite 0⟩ fvZero).2.2 ≠ fvZero := by
  refine ⟨rfl, rfl, ?_⟩
  decide

/-- Claim C3, amended: after LineVslzr.update, shadow slot 0 equals the
live point array as updated by that tick, and slot i (0 < i < k) equals the
pre-update contents of slot i-1. After WaveLineVslzr.update the slots also
shift, but the shadow shift runs before the live points are rebuilt, so
slot 0 equals the live array as it was BEFORE the tick. -/
theorem trail_slot_shift_semantics (P : LineParams) (s : LineState) (a : AudioData) (dt : ℝ)
    (Q : WaveParams) (w : WaveState) (b : AudioData) (dt2 : ℝ)
    (hs : s.shadows ≠ []) (hw : w.shadows ≠ []) :
    ((lineUpdate P s a dt).shadows.head? = some (livePoints P (lineUpdate P s a dt).ys)) ∧
      (∀ i : ℕ, 0 < i → i < s.shadows.length →
        (lineUpdate P s a dt).shadows.get? i = s.shadows.get? (i - 1)) ∧
      ((waveUpdate Q w b dt2).shadows.head? = some w.positions) ∧
      (∀ i : ℕ, 0 < i → i < w.shadows.length →
        (waveUpdate Q w b dt2).shadows.get? i = w.shadows.get? (i - 1)) := by
  refine ⟨rfl, ?_, rfl, ?_⟩
  · intro i h0 hlen
    exact shiftIn_getQ _ _ _ h0 hlen
  · intro i h0 hlen
    exact shiftIn_getQ _ _ _ h0 hlen

/-- Claim C3, witness: on two-slot trails of concrete two-point simulators,
slot 1 after the tick equals the old slot 0 in both variants. -/
theorem trail_slot_shift_semantics_witness :
    twoShadowLine.shadows ≠ [] ∧ twoShadowWave.shadows ≠ [] ∧
      (lineUpdate lineCexParams twoShadowLine silence (1 / 60)).shadows.get? 1 =
        twoShadowLine.shadows.get? 0 ∧
      (waveUpdate waveCexParams twoShadowWave silence (1 / 60)).shadows.get? 1 =
        twoShadowWave.shadows.get? 0 :=
  ⟨by simp [twoShadowLine], by simp [twoShadowWave],
    (trail_slot_shift_semantics lineCexParams twoShadowLine silence (1 / 60)
      waveCexParams twoShadowWave silence (1 / 60)
      (by simp [twoShadowLine]) (by simp [twoShadowWave])).2.1 1 (by norm_num)
      (by simp [twoShadowLine]),
    (trail_slot_shift_semantics lineCexParams twoShadowLine silence (1 / 60)
      waveCexParams twoShadowWave silence (1 / 60)
      (by simp [twoShadowLine]) (by simp [twoShadowWave])).2.2.2 1 (by norm_num)
      (by simp [twoShadowWave])⟩

/-- Claim C3, counterexample: one silent tick of a fresh two-point
WaveLineVslzr. The tick moves the live points onto the x-axis span
(-15 and 15), but shadow slot 0 still holds the all-zero pre-tick array,
so slot 0 does not equal the live array updated by that same tick. -/
theorem wave_trail_slot_zero_pre_update :
    (waveUpdate waveCexParams waveCex0 silence (1 / 60)).shadows.head? ≠
      some ((waveUpdate waveCexParams waveCex0 silence (1 / 60)).positions) := by
  have hr : List.range 2 = [0, 1] := rfl
  norm_num [waveUpdate, waveCexParams, waveCex0, silence, shiftIn, smoothWave, waveRawPoint,
    waveCalculateY, waveHarmonics, waveX, easeInOutQuad, zeroPts, hr, min_def, max_def,
    List.getD, Prod.ext_iff]

/-- Claim C4, amended: the acceleration vector is never cleared and never
read back. Position and velocity after Particle.update do not depend on
the stored acceleration at all, and the new acceleration is the old one
plus the noise and wave contributions of the current tick, so
contributions accumulate across ticks. -/
theorem particle_acceleration_carries_over (boundary : ℝ) (p : Particle) (inp : TickInput)
    (a : Vec3) :
    (Particle.update boundary { p with acceleration := a } inp).position =
        (Particle.update boundary p inp).position ∧
      (Particle.update boundary { p with acceleration := a } inp).velocity =
        (Particle.update boundary p inp).velocity ∧
      (Particle.update boundary { p with acceleration := a } inp).acceleration =
        a.add ((Particle.update boundary { p with acceleration := Vec3.zero } inp).acceleration) := by
  refine ⟨rfl, rfl, ?_⟩
  simp only [Particle.update, Vec3.add, Vec3.zero, noiseAccelVec_acc_irrel]
  congr 1 <;> ring

/-- Claim C4, counterexample: two particles in identical situations except
that one carries acceleration (1, 0, 0) from earlier ticks end the tick
with different accelerations, so the vector is not implicitly cleared at
the start of the update. -/
theorem particle_acceleration_not_cleared :
    (Particle.update 1 accParticle quietInput).acceleration.x ≠
      (Particle.update 1 { accParticle with acceleration := Vec3.zero } quietInput).acceleration.x := by
  norm_num [Particle.update, accParticle, quietInput, silence, quietNoise, minEnergy,
    maxEnergy, restThreshold, baseSpeed, audioForceFrom, calculateCenterForce, avgAudio,
    pushHistory, applyBoundary, noiseAccelVec, Vec3.add, Vec3.sub, Vec3.smul, Vec3.dot,
    Vec3.zero, Vec3.distanceTo, Vec3.length, Vec3.normalize, Vec3.reflect, min_def, max_def]

/-- Claim C5, code bug: the valid branch of the BasicParticleSystem tick
loop executes a return statement, so on a two-particle system where the
first particle keeps a valid position the second particle is returned
unchanged and its buffer slot keeps its stale value (7, 7, 7), even though
running its update would visibly change it (energy 0.1 to 0.35). -/
theorem basic_update_skips_later_particles :
    (basicTickAux 1 [(originParticle, quietInput), (originParticle, quietInput)]
        [⟨7, 7, 7⟩, ⟨7, 7, 7⟩]).1.get? 1 = some originParticle ∧
      (basicTickAux 1 [(originParticle, quietInput), (originParticle, quietInput)]
        [⟨7, 7, 7⟩, ⟨7, 7, 7⟩]).2.get? 1 = some ⟨7, 7, 7⟩ ∧
      (Particle.update 1 originParticle quietInput).energy ≠ originParticle.energy := by
  refine ⟨rfl, rfl, ?_⟩
  norm_num [Particle.update, originParticle, quietInput, silence, quietNoise, minEnergy,
    maxEnergy, restThreshold, baseSpeed, audioForceFrom, calculateCenterForce, avgAudio,
    pushHistory, applyBoundary, noiseAccelVec, Vec3.add, Vec3.sub, Vec3.smul, Vec3.dot,
    Vec3.zero, Vec3.distanceTo, Vec3.length, Vec3.normalize, Vec3.reflect, min_def, max_def]

/-- Claim C6, amended: on an empty magnitude array every band of
processAudioData has zero elements and the division sum / (count * 255) is
the unguarded 0 / 0, so all three energies come out NaN, not zero. -/
theorem processAudioData_empty_is_nan :
    processAudioData [] = (FNum.nan, FNum.nan, FNum.nan) := by
  simp [processAudioData, normalizeBand, FNum.div, FNum.npow, FNum.mul]

/-- Claim C6, counterexample: the empty input does not yield zero energies
for the three bands. -/
theorem processAudioData_empty_not_zero :
    processAudioData [] ≠ (FNum.finite 0, FNum.finite 0, FNum.finite 0) := by
  simp [processAudioData, normalizeBand, FNum.div, FNum.npow, FNum.mul]

/-- Claim C7, confirmed: after applyBoundary the distance between the
particle position and the center is at most boundary + boundary / 2, the
boundary plus the largest possible random variation. -/
theorem applyBoundary_distance_le (b rand e : ℝ) (center pos vel : Vec3)
    (hb : 0 ≤ b) (h0 : 0 ≤ rand) (h1 : rand ≤ 1) :
    ((applyBoundary b center rand pos vel e).1).distanceTo center ≤ b + b / 2 := by
  unfold applyBoundary
  by_cases h : b + rand * (b / 2) < pos.distanceTo center
  · rw [if_pos h]
    show ((center.add (((pos.sub center).normalize).smul b)).distanceTo center) ≤ b + b / 2
    unfold Vec3.distanceTo
    rw [Vec3.add_sub_cancel_left, Vec3.length_smul, abs_of_nonneg hb]
    have := Vec3.normalize_length_le_one (pos.sub center)
    nlinarith [Vec3.length_nonneg ((pos.sub center).normalize)]
  · rw [if_neg h]
    show pos.distanceTo center ≤ b + b / 2
    push_neg at h
    have : rand * (b / 2) ≤ b / 2 := by nlinarith
    linarith

/-- Claim C7, witness: boundary 1 and random draw 0 on a particle at the
origin. -/
theorem applyBoundary_distance_le_witness :
    (0 : ℝ) ≤ 1 ∧ (0 : ℝ) ≤ 0 ∧ (0 : ℝ) ≤ 1 ∧
      ((applyBoundary 1 Vec3.zero 0 Vec3.zero Vec3.zero 0.1).1).distanceTo Vec3.zero ≤
        1 + 1 / 2 :=
  ⟨by norm_num, le_rfl, by norm_num,
    applyBoundary_distance_le 1 0 0.1 Vec3.zero Vec3.zero Vec3.zero (by norm_num) le_rfl
      (by norm_num)⟩

/-- Claim C8, confirmed: starting from the empty constructor history, after
any run of ticks the history length is min(number of ticks, 10): it never
exceeds 10, and during the first ten ticks it equals the tick count, which
is the shrinking window the history average divides by (avgAudio divides
by the actual length). -/
theorem audioHistory_length_min_law (boundary : ℝ) (p : Particle) (inputs : List TickInput)
    (hp : p.audioHistory = []) :
    (runParticle boundary p inputs).audioHistory.length = min inputs.length 10 := by
  have h := runParticle_history_len boundary inputs p (by rw [hp]; simp)
  rw [hp] at h
  simpa using h

/-- Claim C8, witness: three silent ticks on a fresh particle leave a
history of length three. -/
theorem audioHistory_length_min_law_witness :
    (runParticle 1 originParticle [quietInput, quietInput, quietInput]).audioHistory.length =
      min ([quietInput, quietInput, quietInput].length) 10 :=
  audioHistory_length_min_law 1 originParticle [quietInput, quietInput, quietInput]
    (by simp [originParticle])

/-- Claim C9, confirmed: for every string point i the tick transition of
LineVslzr is exactly: the velocity grows by (modes sum + noise force +
audio force + tension force - y) * dt, is damped by the factor
1 - (damping + edge factor * 0.9), then y grows by the new velocity and is
decayed by exp(-dt / 1). -/
theorem line_point_transition (P : LineParams) (s : LineState) (a : AudioData) (dt : ℝ)
    (i : ℕ) (hi : i < P.numPoints) :
    (lineUpdate P s a dt).vs.getD i 0 =
        ((s.vs.getD i 0) +
          (calculateDisplacement P (calcTotalAmplitude a) (lineX P i) (s.time + dt) +
            calculateNoiseForce P s.noise2 (lineX P i) (s.time + dt) +
            lineAudioForce a + calculateTensionForce P (s.ys.getD i 0) - s.ys.getD i 0) * dt) *
          (1 - (P.damping + dampingFactor P i * 0.9)) ∧
      (lineUpdate P s a dt).ys.getD i 0 =
        ((s.ys.getD i 0) + (lineUpdate P s a dt).vs.getD i 0) * Real.exp (-dt / 1) := by
  have hv : (lineUpdate P s a dt).vs.getD i 0 =
      (updateSinglePoint P s.noise2 (s.time + dt) dt (calcTotalAmplitude a)
        (Real.exp (-dt / 1)) a i (s.ys.getD i 0) (s.vs.getD i 0)).2 := by
    simp only [lineUpdate, List.map_map]
    exact getD_map_range _ _ _ hi
  have hy : (lineUpdate P s a dt).ys.getD i 0 =
      (updateSinglePoint P s.noise2 (s.time + dt) dt (calcTotalAmplitude a)
        (Real.exp (-dt / 1)) a i (s.ys.getD i 0) (s.vs.getD i 0)).1 := by
    simp only [lineUpdate, List.map_map]
    exact getD_map_range _ _ _ hi
  constructor
  · rw [hv]; simp only [updateSinglePoint]
  · rw [hy, hv]; simp only [updateSinglePoint]

/-- Claim C9, witness: the transition equations instantiated at point 0 of
a one-point line under one silent tick. -/
theorem line_point_transition_witness :
    0 < lineWitParams.numPoints ∧
      ((lineUpdate lineWitParams lineWitState silence (1 / 60)).vs.getD 0 0 =
          ((lineWitState.vs.getD 0 0) +
            (calculateDisplacement lineWitParams (calcTotalAmplitude silence)
              (lineX lineWitParams 0) (lineWitState.time + 1 / 60) +
              calculateNoiseForce lineWitParams lineWitState.noise2 (lineX lineWitParams 0)
                (lineWitState.time + 1 / 60) +
              lineAudioForce silence +
              calculateTensionForce lineWitParams (lineWitState.ys.getD 0 0) -
              lineWitState.ys.getD 0 0) * (1 / 60)) *
            (1 - (lineWitParams.damping + dampingFactor lineWitParams 0 * 0.9)) ∧
        (lineUpdate lineWitParams lineWitState silence (1 / 60)).ys.getD 0 0 =
          ((lineWitState.ys.getD 0 0) +
            (lineUpdate lineWitParams lineWitState silence (1 / 60)).vs.getD 0 0) *
            Real.exp (-(1 / 60) / 1)) :=
  ⟨by norm_num [lineWitParams],
    line_point_transition lineWitParams lineWitState silence (1 / 60) 0
      (by norm_num [lineWitParams])⟩

/-- Claim C10, amended: for magnitude arrays with at least three bins
(every third of the index range nonempty), an all-zero array yields
(0, 0, 0) and an all-255 array yields (10, 10, 10) with p = 2 and k = 10.
Arrays of one or two bins are nonempty but have an empty low band, so they
yield NaN instead. -/
theorem processAudioData_uniform_bands (L : ℕ) (hL : 3 ≤ L) :
    processAudioData (List.replicate L 0) =
        (FNum.finite 0, FNum.finite 0, FNum.finite 0) ∧
      processAudioData (List.replicate L 255) =
        (FNum.finite 10, FNum.finite 10, FNum.finite 10) := by
  constructor
  · rw [processAudioData_replicate L 0 hL]
    norm_num
  · rw [processAudioData_replicate L 255 hL]
    norm_num

/-- Claim C10, witness: the boundary values at the smallest array with all
three bands nonempty. -/
theorem processAudioData_uniform_bands_witness :
    3 ≤ 3 ∧
      (processAudioData (List.replicate 3 0) =
          (FNum.finite 0, FNum.finite 0, FNum.finite 0) ∧
        processAudioData (List.replicate 3 255) =
          (FNum.finite 10, FNum.finite 10, FNum.finite 10)) :=
  ⟨le_rfl, processAudioData_uniform_bands 3 le_rfl⟩

/-- Claim C10, counterexample: the one-element all-zero array is nonempty,
yet the low and mid bands are empty index ranges, so the extractor returns
NaN for them rather than the claimed all-zero vector. -/
theorem processAudioData_nonempty_nan :
    processAudioData [0] = (FNum.nan, FNum.nan, FNum.finite 0) ∧
      processAudioData [0] ≠ (FNum.finite 0, FNum.finite 0, FNum.finite 0) := by
  constructor
  · simp [processAudioData, normalizeBand, FNum.div, FNum.npow, FNum.mul]
  · simp [processAudioData, normalizeBand, FNum.div, FNum.npow, FNum.mul]
